import Mathlib

set_option autoImplicit false

/-!
Shallow embedding of the `linked-map` repository (a hash-indexed doubly linked
list with cursors), verified against its specification.

Raw pointers of the Rust source are modelled as `Nat` identifiers into an
explicit store (`Mem`); a nullable pointer (`*mut Node`) is `Option Nat` and a
`NonNull` pointer is a plain `Nat`.  Writing through a pointer that is not in
the store is undefined behaviour in the source; the model makes such writes
no-ops and such reads return `none`, and every theorem below either supplies
liveness hypotheses or evaluates states in which all dereferenced pointers are
live.  Operations that can panic in the source return `Option`, with `none`
modelling the panic.
-/

namespace LinkedMapModel

universe u v

/-- Association list lookup, first match wins; models both the node store and
the hash index (`hashbrown::HashMap` keyed by `K`). -/
def lookupA {α : Type u} {β : Type v} [DecidableEq α] : List (α × β) → α → Option β
  | [], _ => none
  | (a, b) :: t, k => if a = k then some b else lookupA t k

/-- Association list update of the first matching entry (no-op if absent). -/
def setA {α : Type u} {β : Type v} [DecidableEq α] : List (α × β) → α → β → List (α × β)
  | [], _, _ => []
  | (a, b) :: t, k, v => if a = k then (a, v) :: t else (a, b) :: setA t k v

/-- Association list removal of the first matching entry. -/
def removeA {α : Type u} {β : Type v} [DecidableEq α] : List (α × β) → α → List (α × β)
  | [], _ => []
  | (a, b) :: t, k => if a = k then t else (a, b) :: removeA t k

variable {K V : Type}

/-- Model of `Node<K, V>` (src/src/linked_list/node.rs and
src/src/linked_list/list/node.rs declare the same layout): sibling pointers
plus the stored key and value. -/
structure Node (K V : Type) where
  previous : Option Nat
  next : Option Nat
  key : K
  val : V
deriving DecidableEq, Repr

/-- Model of the heap holding the list's nodes: a store of allocated nodes
addressed by `Nat` ids plus a fresh-id counter. -/
structure Mem (K V : Type) where
  store : List (Nat × Node K V)
  fresh : Nat
deriving DecidableEq, Repr

/-- Dereference a node pointer; `none` models a dangling or null dereference. -/
def Mem.get? (m : Mem K V) (p : Nat) : Option (Node K V) :=
  lookupA m.store p

/-- Overwrite the node at `p` (no-op if `p` is not allocated). -/
def Mem.set (m : Mem K V) (p : Nat) (n : Node K V) : Mem K V :=
  ⟨setA m.store p n, m.fresh⟩

/-- Model of `Box::from_raw` followed by drop: deallocate the node at `p`. -/
def Mem.free (m : Mem K V) (p : Nat) : Mem K V :=
  ⟨removeA m.store p, m.fresh⟩

/-- Model of `Box::into_raw(Box::new(..))`: allocate a node at a fresh id. -/
def Mem.alloc (m : Mem K V) (n : Node K V) : Nat × Mem K V :=
  (m.fresh, ⟨(m.fresh, n) :: m.store, m.fresh + 1⟩)

/-- The empty heap. -/
def Mem.empty : Mem K V := ⟨[], 0⟩

/-- Write the `next` field of the node at `p`. -/
def Mem.setNext (m : Mem K V) (p : Nat) (q : Option Nat) : Mem K V :=
  match m.get? p with
  | none => m
  | some n => m.set p { n with next := q }

/-- Write the `previous` field of the node at `p`. -/
def Mem.setPrevious (m : Mem K V) (p : Nat) (q : Option Nat) : Mem K V :=
  match m.get? p with
  | none => m
  | some n => m.set p { n with previous := q }

/-- Write the `val` field of the node at `p`. -/
def Mem.setVal (m : Mem K V) (p : Nat) (v : V) : Mem K V :=
  match m.get? p with
  | none => m
  | some n => m.set p { n with val := v }

/-- Null-guarded pointer write: `if let Some(x) = p.as_mut() { x.next = q }`. -/
def Mem.setNextIf (m : Mem K V) (p : Option Nat) (q : Option Nat) : Mem K V :=
  match p with
  | none => m
  | some x => m.setNext x q

/-- Null-guarded pointer write: `if let Some(x) = p.as_mut() { x.previous = q }`. -/
def Mem.setPreviousIf (m : Mem K V) (p : Option Nat) (q : Option Nat) : Mem K V :=
  match p with
  | none => m
  | some x => m.setPrevious x q

/-- Model of `Node::new` (src/src/linked_list/list/node.rs, lines 21-29):
allocate a node with both sibling pointers null. -/
def nodeNew (m : Mem K V) (k : K) (v : V) : Nat × Mem K V :=
  m.alloc { previous := none, next := none, key := k, val := v }

/-- Model of `Node::insert_before` (identical bodies in
src/src/linked_list/list/node.rs lines 33-40 and src/src/linked_list/node.rs
lines 42-49): set `node.next := self`, `node.previous := self.previous`, then
`self.previous := node`.  Note that the source does not patch the old
`self.previous` node's `next` pointer. -/
def nodeInsertBefore (m : Mem K V) (self node : Nat) : Mem K V :=
  match m.get? self with
  | none => m
  | some s =>
    let m1 := m.setNext node (some self)
    let m2 := m1.setPrevious node s.previous
    m2.setPrevious self (some node)

/-- Model of `Node::insert_after` (identical bodies in both node.rs files):
set `node.next := self.next`, `node.previous := self`, then
`self.next := node`.  The source does not patch the old `self.next` node's
`previous` pointer. -/
def nodeInsertAfter (m : Mem K V) (self node : Nat) : Mem K V :=
  match m.get? self with
  | none => m
  | some s =>
    let m1 := m.setNext node s.next
    let m2 := m1.setPrevious node (some self)
    m2.setNext self (some node)

/-- Model of `Node::remove` of src/src/linked_list/list/node.rs (lines 68-81):
patch both neighbours to skip this node, then null this node's own links. -/
def nodeRemoveL (m : Mem K V) (self : Nat) : Mem K V :=
  match m.get? self with
  | none => m
  | some s =>
    let m1 := m.setPreviousIf s.next s.previous
    let m2 := m1.setNextIf s.previous s.next
    let m3 := m2.setNext self none
    m3.setPrevious self none

/-- Model of `Node::remove` of src/src/linked_list/node.rs (lines 75-84):
patch both neighbours to skip this node; this node's own links are left as is. -/
def nodeRemoveC (m : Mem K V) (self : Nat) : Mem K V :=
  match m.get? self with
  | none => m
  | some s =>
    let m1 := m.setPreviousIf s.next s.previous
    m1.setNextIf s.previous s.next

/-- Model of `Node::insert` of src/src/linked_list/node.rs (lines 22-39):
allocate a node with the given siblings, then patch `next.previous` and
`previous.next` (each only if non-null) to point at the new node. -/
def nodeInsert (m : Mem K V) (k : K) (v : V) (previous next : Option Nat) :
    Nat × Mem K V :=
  let r := m.alloc { previous := previous, next := next, key := k, val := v }
  let m2 := r.2.setPreviousIf next (some r.1)
  (r.1, m2.setNextIf previous (some r.1))

/-- Model of `LinkedList<K, V>` (src/src/linked_list/list/mod.rs, lines 7-13):
nullable head and tail pointers. -/
structure LinkedList where
  head : Option Nat
  tail : Option Nat
deriving DecidableEq, Repr

/-- Model of `LinkedList::new`: both pointers null. -/
def LinkedList.empty : LinkedList := ⟨none, none⟩

/-- Model of `LinkedList::insert_before` (src/src/linked_list/list/mod.rs,
lines 138-144): splice at node level, then move `head` if `before` was it. -/
def listInsertBefore (m : Mem K V) (l : LinkedList) (node before : Nat) :
    Mem K V × LinkedList :=
  let wasHead := l.head = some before
  let m1 := nodeInsertBefore m before node
  (m1, if wasHead then { l with head := some node } else l)

/-- Model of `LinkedList::insert_after` (src/src/linked_list/list/mod.rs,
lines 152-158): splice at node level, then move `tail` if `after` was it. -/
def listInsertAfter (m : Mem K V) (l : LinkedList) (node after : Nat) :
    Mem K V × LinkedList :=
  let wasTail := l.tail = some after
  let m1 := nodeInsertAfter m after node
  (m1, if wasTail then { l with tail := some node } else l)

/-- Model of `LinkedList::append` (src/src/linked_list/list/mod.rs, lines
54-66).  On the empty branch the source writes `self.tail == node.as_ptr();`
— a comparison, not an assignment — so `tail` is left unchanged (null). -/
def listAppend (m : Mem K V) (l : LinkedList) (k : K) (v : V) :
    Mem K V × LinkedList × Nat :=
  let r := nodeNew m k v
  match l.tail with
  | some t =>
    let r2 := listInsertAfter r.2 l r.1 t
    (r2.1, r2.2, r.1)
  | none => (r.2, { l with head := some r.1 }, r.1)

/-- Model of `LinkedList::prepend` (src/src/linked_list/list/mod.rs, lines
70-82).  On the empty branch the source writes `self.tail == node.as_ptr();`
— a comparison, not an assignment — so `tail` is left unchanged (null). -/
def listPrepend (m : Mem K V) (l : LinkedList) (k : K) (v : V) :
    Mem K V × LinkedList × Nat :=
  let r := nodeNew m k v
  match l.head with
  | some h =>
    let r2 := listInsertBefore r.2 l r.1 h
    (r2.1, r2.2, r.1)
  | none => (r.2, { l with head := some r.1 }, r.1)

/-- Model of `LinkedList::move_to_front` (src/src/linked_list/list/mod.rs,
lines 85-100).  Early return if `node` is the head; otherwise fix `tail` if
`node` was it, unlink `node`, splice it before the head via the node-level
`insert_before`, and set `head := node`.  The result is `none` when the
source would dereference an unallocated node or hit the
`expect("list head to be set")` panic. -/
def listMoveToFront (m : Mem K V) (l : LinkedList) (node : Nat) :
    Option (Mem K V × LinkedList) :=
  if l.head = some node then some (m, l)
  else
    match m.get? node with
    | none => none
    | some n =>
      let l1 := if l.tail = some node then { l with tail := n.previous } else l
      let m1 := nodeRemoveL m node
      match l1.head with
      | none => none
      | some h => some (nodeInsertBefore m1 h node, { l1 with head := some node })

/-- Model of `LinkedList::move_to_back` (src/src/linked_list/list/mod.rs,
lines 103-118).  Early return if `node` is the tail; otherwise fix `head` if
`node` was it, unlink `node`, splice it via the node-level `insert_before`
applied to the old tail — exactly as written in the source — and set
`tail := node`.  The result is `none` when the source would dereference an
unallocated node or hit the `expect("list tail to be set")` panic. -/
def listMoveToBack (m : Mem K V) (l : LinkedList) (node : Nat) :
    Option (Mem K V × LinkedList) :=
  if l.tail = some node then some (m, l)
  else
    match m.get? node with
    | none => none
    | some n =>
      let l1 := if l.head = some node then { l with head := n.next } else l
      let m1 := nodeRemoveL m node
      match l1.tail with
      | none => none
      | some t => some (nodeInsertBefore m1 t node, { l1 with tail := some node })

/-- Model of `LinkedList::remove` (src/src/linked_list/list/mod.rs, lines
121-130): fix `head` and `tail` if `node` was either, then unlink. -/
def listRemove (m : Mem K V) (l : LinkedList) (node : Nat) :
    Option (Mem K V × LinkedList) :=
  match m.get? node with
  | none => none
  | some n =>
    let l1 := if l.head = some node then { l with head := n.next } else l
    let l2 := if l1.tail = some node then { l1 with tail := n.previous } else l1
    some (nodeRemoveL m node, l2)

/-- Model of `LinkedMap<K, V, S>` (src/src/map.rs, lines 19-28): the list, the
hash index from keys to node pointers, and the nullable saved node pointer. -/
structure LinkedMapState (K V : Type) where
  mem : Mem K V
  list : LinkedList
  map : List (K × Nat)
  saved : Option Nat
deriving DecidableEq, Repr

/-- Model of `LinkedMap::new` / `Default::default`: empty list, empty index,
null saved pointer. -/
def LinkedMapState.empty : LinkedMapState K V :=
  { mem := Mem.empty, list := LinkedList.empty, map := [], saved := none }

/-- Model of `LinkedMap::len` (src/src/map.rs, line 197): the hash index's
entry count. -/
def LinkedMapState.len (s : LinkedMapState K V) : Nat :=
  s.map.length

/-- Keys reachable by following `next` pointers from `p`, in order.  `fuel`
bounds the walk so that the function is total even on corrupted stores. -/
def traverseFrom (m : Mem K V) : Option Nat → Nat → List K
  | _, 0 => []
  | none, _ => []
  | some c, fuel + 1 =>
    match m.get? c with
    | none => []
    | some n => n.key :: traverseFrom m n.next fuel

/-- Keys of the nodes reachable by traversing the list head to tail. -/
def traverseKeys (s : LinkedMapState K V) (fuel : Nat) : List K :=
  traverseFrom s.mem s.list.head fuel

/-- Key set of the hash index, as the list of keys of its entries. -/
def indexKeys (s : LinkedMapState K V) : List K :=
  s.map.map Prod.fst

section CursorOps

variable [DecidableEq K]

/-- Model of `Cursor::next` / `CursorMut::next` (shared macro body,
src/src/linked_list/cursor.rs lines 61-68): if the current node exists and
has a next node, advance to it and return its key and value; otherwise leave
the position unchanged and return nothing.  Returns the new position and the
yielded pair.  A dangling dereference (impossible under the source's safety
contract) is modelled as yielding nothing. -/
def cursorNext (s : LinkedMapState K V) (cur : Option Nat) :
    Option Nat × Option (K × V) :=
  match cur with
  | none => (cur, none)
  | some c =>
    match s.mem.get? c with
    | none => (cur, none)
    | some n =>
      match n.next with
      | none => (cur, none)
      | some nx =>
        match s.mem.get? nx with
        | none => (cur, none)
        | some nn => (some nx, some (nn.key, nn.val))

/-- Model of `Cursor::previous` / `CursorMut::previous` (shared macro body,
src/src/linked_list/cursor.rs lines 72-79), mirror of `cursorNext`. -/
def cursorPrevious (s : LinkedMapState K V) (cur : Option Nat) :
    Option Nat × Option (K × V) :=
  match cur with
  | none => (cur, none)
  | some c =>
    match s.mem.get? c with
    | none => (cur, none)
    | some n =>
      match n.previous with
      | none => (cur, none)
      | some pv =>
        match s.mem.get? pv with
        | none => (cur, none)
        | some pn => (some pv, some (pn.key, pn.val))

/-- Model of `to_key` (shared macro body, src/src/linked_list/cursor.rs lines
83-89): look the key up in the hash index; on a hit move the cursor to the
stored pointer and return that node's key and value (reading through a
dangling stored pointer, undefined in the source, is modelled as `none`). -/
def cursorToKey (s : LinkedMapState K V) (cur : Option Nat) (k : K) :
    Option Nat × Option (K × V) :=
  match lookupA s.map k with
  | none => (cur, none)
  | some p =>
    match s.mem.get? p with
    | none => (some p, none)
    | some n => (some p, some (n.key, n.val))

/-- Model of `resume` (shared macro body of `Cursor` and `CursorMut`,
src/src/linked_list/cursor.rs lines 118-125): if no node is saved return
`false` and leave the position unchanged, else move to the saved node and
return `true`. -/
def cursorResume (s : LinkedMapState K V) (cur : Option Nat) :
    Bool × Option Nat :=
  match s.saved with
  | none => (false, cur)
  | some p => (true, some p)

/-- Model of `CursorMut::save` (src/src/linked_list/cursor.rs lines 352-354):
set the container's saved pointer to the cursor's current position. -/
def cursorSave (s : LinkedMapState K V) (cur : Option Nat) : LinkedMapState K V :=
  { s with saved := cur }

/-- Model of `CursorMut::clear_saved` (src/src/linked_list/cursor.rs lines
357-359): null the container's saved pointer. -/
def cursorClearSaved (s : LinkedMapState K V) : LinkedMapState K V :=
  { s with saved := none }

/-- Model of `CursorMut::set_only_node` (src/src/linked_list/cursor.rs lines
290-301): allocate a node with null siblings, make it head, tail and the
cursor's current node, and register it in the hash index via
`insert_unique_unchecked`. -/
def setOnlyNode (s : LinkedMapState K V) (k : K) (v : V) :
    LinkedMapState K V × Option Nat :=
  let r := nodeInsert s.mem k v none none
  ({ mem := r.2, list := ⟨some r.1, some r.1⟩, map := (k, r.1) :: s.map,
     saved := s.saved }, some r.1)

/-- Model of `CursorMut::set_value` (src/src/linked_list/cursor.rs lines
305-311): overwrite the value stored in the node an occupied index entry
points to. -/
def setValueAt (s : LinkedMapState K V) (p : Nat) (v : V) : LinkedMapState K V :=
  { s with mem := s.mem.setVal p v }

/-- Model of `CursorMut::insert_before` (src/src/linked_list/cursor.rs lines
241-260).  With a current node: an occupied index entry for `key` gets its
node's value overwritten in place (`set_value`); a vacant one gets a new node
spliced between `current.previous` and `current` (`Node::insert`), registered
in the index, with `head` moved if `current` was the head.  With no current
node (empty container) the pair becomes the only node.  Returns the new state
and cursor position. -/
def cursorInsertBefore (s : LinkedMapState K V) (cur : Option Nat) (k : K)
    (v : V) : LinkedMapState K V × Option Nat :=
  match cur with
  | none => setOnlyNode s k v
  | some c =>
    match s.mem.get? c with
    | none => (s, cur)
    | some n =>
      match lookupA s.map k with
      | some p => (setValueAt s p v, cur)
      | none =>
        let r := nodeInsert s.mem k v n.previous (some c)
        let l1 := if s.list.head = some c then { s.list with head := some r.1 }
          else s.list
        ({ s with mem := r.2, map := (k, r.1) :: s.map, list := l1 }, cur)

/-- Model of `CursorMut::insert_after` (src/src/linked_list/cursor.rs lines
267-286), mirror of `cursorInsertBefore` at the `next`/`tail` side. -/
def cursorInsertAfter (s : LinkedMapState K V) (cur : Option Nat) (k : K)
    (v : V) : LinkedMapState K V × Option Nat :=
  match cur with
  | none => setOnlyNode s k v
  | some c =>
    match s.mem.get? c with
    | none => (s, cur)
    | some n =>
      match lookupA s.map k with
      | some p => (setValueAt s p v, cur)
      | none =>
        let r := nodeInsert s.mem k v (some c) n.next
        let l1 := if s.list.tail = some c then { s.list with tail := some r.1 }
          else s.list
        ({ s with mem := r.2, map := (k, r.1) :: s.map, list := l1 }, cur)

/-- Model of `CursorMut::remove` (src/src/linked_list/cursor.rs lines
319-342): with a current node, fix `head`/`tail` if the node was either, null
`saved` if it pointed at the node, move the cursor to the previous node if
any, else to the next one, unlink the node and free it, and return its key
and value.  Exactly as in the source, the hash index (`s.map`) is not
touched.  Returns the new state, the new cursor position and the removed
pair. -/
def cursorRemove (s : LinkedMapState K V) (cur : Option Nat) :
    LinkedMapState K V × Option Nat × Option (K × V) :=
  match cur with
  | none => (s, cur, none)
  | some c =>
    match s.mem.get? c with
    | none => (s, cur, none)
    | some n =>
      let l1 := if s.list.head = some c then { s.list with head := n.next }
        else s.list
      let l2 := if l1.tail = some c then { l1 with tail := n.previous } else l1
      let sv := if s.saved = some c then none else s.saved
      let cur2 := match n.previous with
        | some p => some p
        | none => n.next
      let m1 := (nodeRemoveC s.mem c).free c
      ({ mem := m1, list := l2, map := s.map, saved := sv }, cur2,
        some (n.key, n.val))

/-- Modelled from the spec: `CursorMut::move_to_front` is absent from the
source — src/src/linked_list/cursor.rs line 361 only lists it as a TODO,
while src/src/map.rs line 277 already calls it.  Spec section 4.5 says it
reorders the current node and is a no-op on an empty container, so it is
modelled as delegating to the list-level `move_to_front` of
src/src/linked_list/list/mod.rs, leaving index and saved pointer untouched. -/
def cursorMoveToFront (s : LinkedMapState K V) (cur : Option Nat) :
    Option (LinkedMapState K V) :=
  match cur with
  | none => some s
  | some c =>
    (listMoveToFront s.mem s.list c).map
      (fun r => { s with mem := r.1, list := r.2 })

/-- Modelled from the spec: `CursorMut::move_to_back` is absent from the
source (TODO at src/src/linked_list/cursor.rs line 361); spec section 4.5
says it reorders the current node and is a no-op on an empty container, so it
delegates to the list-level `move_to_back`. -/
def cursorMoveToBack (s : LinkedMapState K V) (cur : Option Nat) :
    Option (LinkedMapState K V) :=
  match cur with
  | none => some s
  | some c =>
    (listMoveToBack s.mem s.list c).map
      (fun r => { s with mem := r.1, list := r.2 })

/-- Model of `LinkedMap::prepend` (src/src/map.rs, lines 272-285).  Occupied
index entry: swap the new value into the node, move the node to the front
(the source calls the nonexistent `CursorMut::move_to_front`; the
spec-modelled `cursorMoveToFront` stands in for it) and return the old value.
Vacant: push a new node via `LinkedList::prepend` and register it.  The
result is `none` when the source would panic or dereference a dangling index
entry. -/
def mapPrepend (s : LinkedMapState K V) (k : K) (v : V) :
    Option (LinkedMapState K V × Option V) :=
  match lookupA s.map k with
  | some p =>
    match s.mem.get? p with
    | none => none
    | some n =>
      let old := n.val
      (cursorMoveToFront (setValueAt s p v) (some p)).map
        (fun s2 => (s2, some old))
  | none =>
    let r := listPrepend s.mem s.list k v
    some ({ s with mem := r.1, list := r.2.1, map := (k, r.2.2) :: s.map }, none)

/-- Model of `LinkedMap::append` (src/src/map.rs, lines 313-316): the body is
`todo!()`, which panics unconditionally, modelled as `none`. -/
def mapAppend (_s : LinkedMapState K V) (_k : K) (_v : V) :
    Option (LinkedMapState K V × Option V) :=
  none

/-- Model of `LinkedMap::resume` / `resume_mut` (src/src/map.rs, lines
330-340): a cursor positioned at the saved node, or `None` if none saved. -/
def mapResume (s : LinkedMapState K V) : Option (Option Nat) :=
  match s.saved with
  | none => none
  | some p => some (some p)

/-- Model of `IterForward::next` (src/src/iter.rs, lines 38-41, generated for
both `Iter` and `IterMut`): each step simply calls `cursor.next()` and stops
at the first `None`.  `fuel` bounds the walk. -/
def iterFrom (s : LinkedMapState K V) : Option Nat → Nat → List (K × V)
  | _, 0 => []
  | cur, fuel + 1 =>
    match cursorNext s cur with
    | (_, none) => []
    | (cur2, some kv) => kv :: iterFrom s cur2 fuel

/-- Model of `IterBackward::next` (src/src/iter.rs, lines 38-41 with
`previous`): each step calls `cursor.previous()` and stops at `None`. -/
def iterRevFrom (s : LinkedMapState K V) : Option Nat → Nat → List (K × V)
  | _, 0 => []
  | cur, fuel + 1 =>
    match cursorPrevious s cur with
    | (_, none) => []
    | (cur2, some kv) => kv :: iterRevFrom s cur2 fuel

/-- Model of `LinkedMap::iter` (src/src/map.rs, lines 350-352): a cursor at
`list.head` consumed by the forward iterator. -/
def mapIter (s : LinkedMapState K V) (fuel : Nat) : List (K × V) :=
  iterFrom s s.list.head fuel

/-- Model of `LinkedMap::iter_rev` (src/src/map.rs, lines 356-358): a cursor
at `list.tail` consumed by the backward iterator. -/
def mapIterRev (s : LinkedMapState K V) (fuel : Nat) : List (K × V) :=
  iterRevFrom s s.list.tail fuel

end CursorOps

/-! Concrete states used by the evaluation theorems and witnesses below. -/

/-- A container holding the single pair `(1, 10)` in node `0`, well formed. -/
def mapOne : LinkedMapState Nat Nat :=
  { mem := ⟨[(0, ⟨none, none, 1, 10⟩)], 1⟩, list := ⟨some 0, some 0⟩,
    map := [(1, 0)], saved := none }

/-- The container `mapOne` with its single node saved. -/
def mapOneSaved : LinkedMapState Nat Nat :=
  { mapOne with saved := some 0 }

/-- A container with entries `1, 2, 3` (values `10, 20, 30`) head to tail,
built from the empty container through cursor insertions and navigation
only: insert `1` into the empty container, insert `2` after it, advance the
cursor, insert `3` after that. -/
def build123 : LinkedMapState Nat Nat :=
  let r1 := cursorInsertBefore (LinkedMapState.empty : LinkedMapState Nat Nat) none 1 10
  let r2 := cursorInsertAfter r1.1 r1.2 2 20
  let c3 := (cursorNext r2.1 r2.2).1
  (cursorInsertAfter r2.1 c3 3 30).1

/-- A well-formed two-node heap: node `0` (key `1`) linked before node `1`
(key `2`). -/
def memAB : Mem Nat Nat :=
  ⟨[(0, ⟨none, some 1, 1, 10⟩), (1, ⟨some 0, none, 2, 20⟩)], 2⟩

/-- The list view of `memAB`: head at node `0`, tail at node `1`. -/
def listAB : LinkedList := ⟨some 0, some 1⟩

/-! Helper lemmas about the store. -/

theorem lookupA_setA {α β : Type} [DecidableEq α] (l : List (α × β)) (a : α)
    (v : β) (b : α) :
    lookupA (setA l a v) b =
      if b = a then (lookupA l a).map (fun _ => v) else lookupA l b := by
  induction l with
  | nil => by_cases hb : b = a <;> simp [setA, lookupA, hb]
  | cons hd t ih =>
    obtain ⟨x, y⟩ := hd
    by_cases hx : x = a
    · subst hx
      by_cases hb : b = x
      · subst hb; simp [setA, lookupA]
      · have hxb : ¬x = b := fun h => hb h.symm
        simp [setA, lookupA, hb, hxb]
    · by_cases hxb : x = b <;>
        by_cases hb : b = a <;>
          simp_all [setA, lookupA]

theorem Mem.get?_set {K V : Type} (m : Mem K V) (p : Nat) (n : Node K V)
    (q : Nat) :
    (m.set p n).get? q =
      if q = p then (m.get? p).map (fun _ => n) else m.get? q := by
  simp [Mem.get?, Mem.set, lookupA_setA]

theorem Mem.get?_setVal {K V : Type} (m : Mem K V) (p : Nat) (v : V) (q : Nat) :
    (m.setVal p v).get? q =
      (m.get? q).map (fun n => if q = p then { n with val := v } else n) := by
  by_cases hqp : q = p
  · subst hqp
    cases hq : m.get? q with
    | none => simp [Mem.setVal, hq]
    | some n => simp [Mem.setVal, hq, Mem.get?_set]
  · cases hp : m.get? p with
    | none =>
      simp only [Mem.setVal, hp]
      cases m.get? q <;> simp [hqp]
    | some n =>
      simp only [Mem.setVal, hp, Mem.get?_set, if_neg hqp]
      cases m.get? q <;> simp [hqp]

theorem traverseFrom_setVal {K V : Type} (m : Mem K V) (p : Nat) (v : V) :
    ∀ (fuel : Nat) (q : Option Nat),
      traverseFrom (m.setVal p v) q fuel = traverseFrom m q fuel := by
  intro fuel
  induction fuel with
  | zero => intro q; cases q <;> rfl
  | succ f ih =>
    intro q
    cases q with
    | none => rfl
    | some c =>
      simp only [traverseFrom, Mem.get?_setVal]
      cases hm : m.get? c with
      | none => rfl
      | some n => by_cases hc : c = p <;> simp [hc, ih]

section SavedLemmas

theorem cursorMoveToFront_saved (s s2 : LinkedMapState K V) (cur : Option Nat)
    (h : cursorMoveToFront s cur = some s2) : s2.saved = s.saved := by
  cases cur with
  | none =>
    simp only [cursorMoveToFront, Option.some_inj] at h
    subst h; rfl
  | some c =>
    simp only [cursorMoveToFront, Option.map_eq_some'] at h
    obtain ⟨r, _, hr⟩ := h
    subst hr; rfl

theorem cursorMoveToBack_saved (s s2 : LinkedMapState K V) (cur : Option Nat)
    (h : cursorMoveToBack s cur = some s2) : s2.saved = s.saved := by
  cases cur with
  | none =>
    simp only [cursorMoveToBack, Option.some_inj] at h
    subst h; rfl
  | some c =>
    simp only [cursorMoveToBack, Option.map_eq_some'] at h
    obtain ⟨r, _, hr⟩ := h
    subst hr; rfl

variable [DecidableEq K]

theorem cursorInsertBefore_saved (s : LinkedMapState K V) (cur : Option Nat)
    (k : K) (v : V) : (cursorInsertBefore s cur k v).1.saved = s.saved := by
  cases cur with
  | none => rfl
  | some c =>
    cases hg : s.mem.get? c with
    | none => simp [cursorInsertBefore, hg]
    | some n =>
      cases hl : lookupA s.map k with
      | none => simp [cursorInsertBefore, hg, hl]
      | some p => simp [cursorInsertBefore, hg, hl, setValueAt]

theorem cursorInsertAfter_saved (s : LinkedMapState K V) (cur : Option Nat)
    (k : K) (v : V) : (cursorInsertAfter s cur k v).1.saved = s.saved := by
  cases cur with
  | none => rfl
  | some c =>
    cases hg : s.mem.get? c with
    | none => simp [cursorInsertAfter, hg]
    | some n =>
      cases hl : lookupA s.map k with
      | none => simp [cursorInsertAfter, hg, hl]
      | some p => simp [cursorInsertAfter, hg, hl, setValueAt]

theorem mapPrepend_saved (s : LinkedMapState K V) (k : K) (v : V)
    (r : LinkedMapState K V × Option V) (h : mapPrepend s k v = some r) :
    r.1.saved = s.saved := by
  cases hl : lookupA s.map k with
  | none =>
    simp only [mapPrepend, hl, Option.some_inj] at h
    subst h; rfl
  | some p =>
    cases hg : s.mem.get? p with
    | none => simp [mapPrepend, hl, hg] at h
    | some n =>
      simp only [mapPrepend, hl, hg, Option.map_eq_some'] at h
      obtain ⟨s2, hs2, hr⟩ := h
      have := cursorMoveToFront_saved (setValueAt s p v) s2 (some p) hs2
      subst hr
      simpa [setValueAt] using this

end SavedLemmas

/-! Claim theorems. -/

/-- C1: the claim states that after every prefix of every operation sequence
the hash index key set equals the set of keys reachable by traversing the
list head to tail.  The code refutes it: `prepend(1, 10)` into the empty map
followed by `cursor_mut().remove()` (the cursor starts at the head) leaves
the index key set `[1]` while the head-to-tail traversal is empty, because
`CursorMut::remove` never removes the key from the hash index. -/
theorem bijection_broken_by_cursor_remove :
    (mapPrepend (LinkedMapState.empty : LinkedMapState Nat Nat) 1 10).map
        (fun r =>
          (indexKeys (cursorRemove r.1 r.1.list.head).1,
           traverseKeys (cursorRemove r.1 r.1.list.head).1 5))
      = some ([1], []) := by decide

/-- C2: the claim states that `CursorMut::remove` unlinks the current node,
removes its key from the hash index (so `len` drops by 1 and `to_key` then
reports absent), repositions the cursor and returns the pair.  Evaluating the
code on a one-entry container at its only node: the pair `(1, 10)` is
returned, the node is unlinked (list empty) and freed (store empty) and the
cursor moves to no node, but the hash index still holds key `1`, `len` is
still `1`, and `to_key(1)` still finds an index entry (now pointing at freed
node `0`) instead of reporting absent. -/
theorem remove_leaves_key_in_index :
    (cursorRemove mapOne (some 0)).2.2 = some (1, 10) ∧
    (cursorRemove mapOne (some 0)).2.1 = none ∧
    (cursorRemove mapOne (some 0)).1.list = LinkedList.empty ∧
    (cursorRemove mapOne (some 0)).1.mem.store = [] ∧
    (cursorRemove mapOne (some 0)).1.len = 1 ∧
    indexKeys (cursorRemove mapOne (some 0)).1 = [1] ∧
    cursorToKey (cursorRemove mapOne (some 0)).1 none 1 = (some 0, none) := by
  decide

/-- C3: the claim states that `LinkedMap::append` mirrors `prepend` at the
back.  The body of `append` in src/src/map.rs is `todo!()`, which panics on
every input (modelled as `none`), so no input produces the claimed
behaviour; `FromIterator::from_iter` calls it in a loop and panics too. -/
theorem append_todo_panics :
    mapAppend (LinkedMapState.empty : LinkedMapState Nat Nat) 1 10 = none :=
  rfl

/-- C4: the claim states that `prepend` of a fresh key into an empty map
creates the node at the front, making it the head and also the tail.
Evaluating the code at `prepend(1, 10)` on the empty map: the previous value
`none` is returned, the node becomes the head, is reachable by traversal and
is indexed, but `tail` remains null, because the empty branch of
`LinkedList::prepend` writes `self.tail == node.as_ptr();` — a comparison,
not an assignment. -/
theorem prepend_into_empty_leaves_tail_null :
    (mapPrepend (LinkedMapState.empty : LinkedMapState Nat Nat) 1 10).map
        (fun r =>
          (r.1.list.head, r.1.list.tail, indexKeys r.1, traverseKeys r.1 5,
           r.2))
      = some (some 0, none, [1], [1], none) := by decide

/-- C5: the claim states that after every list operation head is absent iff
tail is absent iff the list is empty, with well-formed links otherwise.
Evaluating `LinkedList::append` of `(1, 10)` on the empty list: the new node
`0` becomes the head but `tail` remains null (the comparison-instead-of-
assignment on the empty branch), violating the invariant immediately after
one operation. -/
theorem append_into_empty_breaks_list_invariant :
    (listAppend (Mem.empty : Mem Nat Nat) LinkedList.empty 1 10).2.1.head
        = some 0 ∧
    (listAppend (Mem.empty : Mem Nat Nat) LinkedList.empty 1 10).2.1.tail
        = none := by decide

/-- C6: the claim states that forward iteration yields exactly all entries
head to tail (and backward iteration tail to head).  On the container
`build123`, whose head-to-tail keys are `[1, 2, 3]`, the forward iterator
yields only `[(2, 20), (3, 30)]` and the backward one only
`[(2, 20), (1, 10)]`: the adapter's `next()` calls `Cursor::next()`, which
advances before yielding, so the entry the cursor starts on is skipped. -/
theorem iter_skips_first_entry :
    traverseKeys build123 9 = [1, 2, 3] ∧
    mapIter build123 9 = [(2, 20), (3, 30)] ∧
    mapIterRev build123 9 = [(2, 20), (1, 10)] := by decide

/-- C7: the saved locator contract holds on the code.  For any container
state whose saved pointer designates a live node `x`: a later `save`
overwrites the saved pointer (there is only the one `saved` field); cursor
insertions with any key leave it pointing at `x`; the reorder operations
(`move_to_front` / `move_to_back`, on any node including `x`) and `prepend`
leave it pointing at `x` and `resume` still repositions to `x` returning
`true`; removing `x` at the cursor clears it, after which cursor `resume`
returns `false` leaving the position unchanged and `LinkedMap::resume`
returns `None`. -/
theorem saved_locator_invariant {K V : Type} [DecidableEq K]
    (s : LinkedMapState K V) (x : Nat)
    (h : s.saved = some x) (hx : (s.mem.get? x).isSome) :
    (∀ cur, (cursorSave s cur).saved = cur) ∧
    (∀ cur k v, (cursorInsertBefore s cur k v).1.saved = some x) ∧
    (∀ cur k v, (cursorInsertAfter s cur k v).1.saved = some x) ∧
    (∀ k v r, mapPrepend s k v = some r →
      r.1.saved = some x ∧ ∀ c0, cursorResume r.1 c0 = (true, some x)) ∧
    (∀ cur s2, cursorMoveToFront s cur = some s2 →
      s2.saved = some x ∧ ∀ c0, cursorResume s2 c0 = (true, some x)) ∧
    (∀ cur s2, cursorMoveToBack s cur = some s2 →
      s2.saved = some x ∧ ∀ c0, cursorResume s2 c0 = (true, some x)) ∧
    ((cursorRemove s (some x)).1.saved = none ∧
      (∀ c0, cursorResume (cursorRemove s (some x)).1 c0 = (false, c0)) ∧
      mapResume (cursorRemove s (some x)).1 = none) := by
  obtain ⟨n, hn⟩ := Option.isSome_iff_exists.mp hx
  refine ⟨fun cur => rfl, ?_, ?_, ?_, ?_, ?_, ?_⟩
  · intro cur k v; rw [cursorInsertBefore_saved, h]
  · intro cur k v; rw [cursorInsertAfter_saved, h]
  · intro k v r hr
    have hs := mapPrepend_saved s k v r hr
    rw [h] at hs
    exact ⟨hs, fun c0 => by simp [cursorResume, hs]⟩
  · intro cur s2 h2
    have hs := cursorMoveToFront_saved s s2 cur h2
    rw [h] at hs
    exact ⟨hs, fun c0 => by simp [cursorResume, hs]⟩
  · intro cur s2 h2
    have hs := cursorMoveToBack_saved s s2 cur h2
    rw [h] at hs
    exact ⟨hs, fun c0 => by simp [cursorResume, hs]⟩
  · have hsv : (cursorRemove s (some x)).1.saved = none := by
      simp [cursorRemove, hn, h]
    exact ⟨hsv, fun c0 => by simp [cursorResume, hsv],
      by simp [mapResume, hsv]⟩

/-- Witness for C7 at a concrete input: on `mapOneSaved` (one live node `0`,
saved), inserting key `2` after the node keeps the saved pointer, and
removing the saved node clears it. -/
theorem saved_locator_invariant_witness :
    (cursorInsertAfter mapOneSaved (some 0) 2 20).1.saved = some 0 ∧
    (cursorRemove mapOneSaved (some 0)).1.saved = none := by
  have h := saved_locator_invariant mapOneSaved 0 rfl (by decide)
  exact ⟨h.2.2.1 (some 0) 2 20, h.2.2.2.2.2.2.1⟩

/-- C8: the update-in-place contract holds on the code.  If the cursor sits
on a live node `c` and `key` is already in the hash index (pointing at node
`p`, whether `p = c` or elsewhere), then `insert_before` and `insert_after`
reduce to `set_value`: the cursor does not move, and the resulting state is
the old one with only node `p`'s value overwritten — hash index, list
head/tail, saved pointer, length and the head-to-tail key sequence are all
unchanged. -/
theorem insert_existing_key_updates_in_place {K V : Type} [DecidableEq K]
    (s : LinkedMapState K V) (c p : Nat) (k : K) (v : V) (fuel : Nat)
    (hc : (s.mem.get? c).isSome) (hk : lookupA s.map k = some p) :
    cursorInsertBefore s (some c) k v = (setValueAt s p v, some c) ∧
    cursorInsertAfter s (some c) k v = (setValueAt s p v, some c) ∧
    (setValueAt s p v).map = s.map ∧
    (setValueAt s p v).list = s.list ∧
    (setValueAt s p v).saved = s.saved ∧
    (setValueAt s p v).len = s.len ∧
    traverseKeys (setValueAt s p v) fuel = traverseKeys s fuel ∧
    (setValueAt s p v).mem.get? p
      = (s.mem.get? p).map (fun n => { n with val := v }) := by
  obtain ⟨n, hn⟩ := Option.isSome_iff_exists.mp hc
  refine ⟨?_, ?_, rfl, rfl, rfl, rfl, ?_, ?_⟩
  · simp [cursorInsertBefore, hn, hk]
  · simp [cursorInsertAfter, hn, hk]
  · simpa [traverseKeys, setValueAt] using
      traverseFrom_setVal s.mem p v fuel s.list.head
  · simp [setValueAt, Mem.get?_setVal]

/-- Witness for C8 at a concrete input: on `mapOne`, inserting the already
present key `1` with a new value before the current node only rewrites the
node's value and moves nothing. -/
theorem insert_existing_key_updates_in_place_witness :
    cursorInsertBefore mapOne (some 0) 1 99 = (setValueAt mapOne 0 99, some 0) ∧
    traverseKeys (setValueAt mapOne 0 99) 3 = traverseKeys mapOne 3 := by
  have h := insert_existing_key_updates_in_place mapOne 0 0 1 99 3
    (by decide) (by decide)
  exact ⟨h.1, h.2.2.2.2.2.2.1⟩

/-- C9: the claim states that `move_to_front` and `move_to_back` relink the
given node at the respective end, preserving the other nodes' order.  The
code refutes it for `move_to_back`: on the two-node list with keys
`[1, 2]`, `move_to_back` on the first node leaves the head-to-tail traversal
`[2]` — the moved node (key `1`, still holding `next = some 1`) is declared
the tail even though it was spliced before the old tail by the source's
`insert_before` call — instead of the claimed `[2, 1]`.  By contrast the
same theorem records that `move_to_front` on the tail node correctly yields
`[2, 1]`. -/
theorem move_to_back_corrupts_list :
    ((listMoveToBack memAB listAB 0).map
        (fun r => (traverseFrom r.1 r.2.head 5, r.2.tail, r.1.get? 0))
      = some ([2], some 0, some ⟨none, some 1, 1, 10⟩)) ∧
    ((listMoveToFront memAB listAB 1).map
        (fun r => traverseFrom r.1 r.2.head 5)
      = some [2, 1]) := by decide

/-- C10: the resume contract holds on the code (the macro of
src/src/linked_list/cursor.rs generates the same body for the shared and the
mutable cursor): with no saved position `resume` returns `false` and leaves
the cursor position unchanged; with a saved node it returns `true` and
repositions the cursor exactly there. -/
theorem resume_contract {K V : Type} (s : LinkedMapState K V)
    (cur : Option Nat) :
    (s.saved = none → cursorResume s cur = (false, cur)) ∧
    (∀ x, s.saved = some x → cursorResume s cur = (true, some x)) := by
  constructor
  · intro h; simp [cursorResume, h]
  · intro x h; simp [cursorResume, h]

/-- Witness for C10 at concrete inputs: the empty container has no saved
position and `resume` reports `false`; `mapOneSaved` has node `0` saved and
`resume` from any position repositions there. -/
theorem resume_contract_witness :
    cursorResume (LinkedMapState.empty : LinkedMapState Nat Nat) none
        = (false, none) ∧
    cursorResume mapOneSaved (some 5) = (true, some 0) :=
  ⟨(resume_contract LinkedMapState.empty none).1 rfl,
   (resume_contract mapOneSaved (some 5)).2 0 rfl⟩

end LinkedMapModel
